import Mathlib

/-!
Verification development for the gomcp repository: a shallow embedding of
the Tool Registry (pkg/server/server.go), the Plan Dispatcher
(ProcessInstruction / ExecutePlan / CallTool), the meta-query helpers
(pkg/utils/utils.go) and the Dynamic Module Loader
(pkg/reg/servicestools.go, the yaegi variant with enabled flags).

Go machine-level details that are external collaborators in the spec
(the HTTP transport, the Docker client, the OpenAI client, the yaegi
interpreter, YAML reading) are abstracted as function parameters; the
JSON handling of encoding/json (Unmarshal into interface.., Marshal of a
string slice) is modelled by an executable JSON parser and a marshalling
function reproducing the stdlib behaviour the dispatcher relies on
(nil slice marshals to JSON null, duplicate object keys resolve to the
last occurrence).
-/

namespace Gomcp

/-- JSON value as produced by encoding/json Unmarshal into an untyped
interface value: null, booleans, numbers (the lexeme is kept verbatim,
since the dispatcher never inspects numeric values), strings, arrays and
objects (field list in source order; lookups take the last occurrence of
a key, matching Go map construction). -/
inductive Json where
  | null : Json
  | bool : Bool → Json
  | num : String → Json
  | str : String → Json
  | arr : List Json → Json
  | obj : List (String × Json) → Json

/-- ASCII lower-casing of a string, modelling strings.ToLower as used by
the dispatcher (only ASCII names occur). -/
def strToLower (s : String) : String :=
  String.mk (s.data.map Char.toLower)

/-- Substring containment, modelling strings.Contains. -/
def listContains (s pat : List Char) : Bool :=
  pat.isPrefixOf s ||
    match s with
    | [] => false
    | _ :: t => listContains t pat

/-- strings.Contains on strings. -/
def strContains (s pat : String) : Bool :=
  listContains s.data pat.data

/-- strings.HasPrefix. -/
def hasPre (s pre : String) : Bool :=
  pre.data.isPrefixOf s.data

/-- strings.TrimPrefix: removes one leading copy of the pattern if present. -/
def trimPre (s pre : String) : String :=
  if pre.data.isPrefixOf s.data then String.mk (s.data.drop pre.data.length) else s

/-- Fields of a JSON object as delivered to the dispatcher
(map[string]interface values of a plan step). -/
abbrev Jobj := List (String × Json)

/-- Lookup in an object field list with Go map semantics: the last
occurrence of a duplicated key wins. -/
def jlookup (fields : Jobj) (key : String) : Option Json :=
  fields.foldl (fun acc p => if p.1 = key then some p.2 else acc) none

/-- Opening brace character. -/
def obrace : Char := Char.ofNat 123

/-- Closing brace character. -/
def cbrace : Char := Char.ofNat 125

/-- JSON whitespace. -/
def isWs (c : Char) : Bool :=
  c = ' ' || c = '\t' || c = '\n' || c = '\r'

/-- Skip leading JSON whitespace. -/
def skipWs : List Char → List Char
  | [] => []
  | c :: cs => if isWs c then skipWs cs else c :: cs

/-- Value of a hexadecimal digit. -/
def hexVal (c : Char) : Option Nat :=
  if '0' ≤ c ∧ c ≤ '9' then some (c.toNat - 48)
  else if 'a' ≤ c ∧ c ≤ 'f' then some (c.toNat - 87)
  else if 'A' ≤ c ∧ c ≤ 'F' then some (c.toNat - 55)
  else none

/-- Decode the body of a JSON string literal (the opening quote already
consumed); returns the decoded characters and the rest of the input. -/
def strBody : List Char → Except String (List Char × List Char)
  | [] => .error "unexpected end of JSON input"
  | c :: cs =>
    if c = '"' then .ok ([], cs)
    else if c = '\\' then
      match cs with
      | [] => .error "unexpected end of JSON input"
      | e :: cs' =>
        if e = '"' || e = '\\' || e = '/' then
          (strBody cs').map (fun r => (e :: r.1, r.2))
        else if e = 'b' then (strBody cs').map (fun r => (Char.ofNat 8 :: r.1, r.2))
        else if e = 'f' then (strBody cs').map (fun r => (Char.ofNat 12 :: r.1, r.2))
        else if e = 'n' then (strBody cs').map (fun r => ('\n' :: r.1, r.2))
        else if e = 'r' then (strBody cs').map (fun r => ('\r' :: r.1, r.2))
        else if e = 't' then (strBody cs').map (fun r => ('\t' :: r.1, r.2))
        else if e = 'u' then
          match cs' with
          | a :: b :: c2 :: d :: cs'' =>
            match hexVal a, hexVal b, hexVal c2, hexVal d with
            | some va, some vb, some vc, some vd =>
              (strBody cs'').map
                (fun r => (Char.ofNat (va * 4096 + vb * 256 + vc * 16 + vd) :: r.1, r.2))
            | _, _, _, _ => .error "invalid unicode escape in string literal"
          | _ => .error "unexpected end of JSON input"
        else .error "invalid escape in string literal"
    else (strBody cs).map (fun r => (c :: r.1, r.2))

/-- Characters that may appear in a JSON number lexeme. -/
def isNumChar (c : Char) : Bool :=
  ('0' ≤ c && c ≤ '9') || c = '-' || c = '+' || c = '.' || c = 'e' || c = 'E'

/-- Longest leading run of number characters. -/
def spanNum : List Char → (List Char × List Char)
  | [] => ([], [])
  | c :: cs =>
    if isNumChar c then
      let r := spanNum cs
      (c :: r.1, r.2)
    else ([], c :: cs)

mutual

/-- Parse one JSON value (fuel-indexed recursive descent), modelling the
grammar accepted by encoding/json Unmarshal into an untyped value. -/
def parseVal : Nat → List Char → Except String (Json × List Char)
  | 0, _ => .error "maximum nesting depth exceeded"
  | Nat.succ fuel, cs =>
    match skipWs cs with
    | [] => .error "unexpected end of JSON input"
    | c :: rest =>
      if c = obrace then
        match skipWs rest with
        | [] => .error "unexpected end of JSON input"
        | c' :: rest' =>
          if c' = cbrace then .ok (Json.obj [], rest')
          else
            match parseMembers fuel (c' :: rest') with
            | .error e => .error e
            | .ok (fs, rem) => .ok (Json.obj fs, rem)
      else if c = '[' then
        match skipWs rest with
        | [] => .error "unexpected end of JSON input"
        | c' :: rest' =>
          if c' = ']' then .ok (Json.arr [], rest')
          else
            match parseItems fuel (c' :: rest') with
            | .error e => .error e
            | .ok (xs, rem) => .ok (Json.arr xs, rem)
      else if c = '"' then
        match strBody rest with
        | .error e => .error e
        | .ok (chars, rem) => .ok (Json.str (String.mk chars), rem)
      else if c = 't' then
        match rest with
        | 'r' :: 'u' :: 'e' :: rem => .ok (Json.bool true, rem)
        | _ => .error "invalid character in literal true"
      else if c = 'f' then
        match rest with
        | 'a' :: 'l' :: 's' :: 'e' :: rem => .ok (Json.bool false, rem)
        | _ => .error "invalid character in literal false"
      else if c = 'n' then
        match rest with
        | 'u' :: 'l' :: 'l' :: rem => .ok (Json.null, rem)
        | _ => .error "invalid character in literal null"
      else if c = '-' || ('0' ≤ c && c ≤ '9') then
        let r := spanNum (c :: rest)
        .ok (Json.num (String.mk r.1), r.2)
      else .error "invalid character looking for beginning of value"

/-- Parse the items of a non-empty JSON array, positioned at the first
item; consumes the closing bracket. -/
def parseItems : Nat → List Char → Except String (List Json × List Char)
  | 0, _ => .error "maximum nesting depth exceeded"
  | Nat.succ fuel, cs =>
    match parseVal fuel cs with
    | .error e => .error e
    | .ok (v, rem) =>
      match skipWs rem with
      | ',' :: rest =>
        match parseItems fuel rest with
        | .error e => .error e
        | .ok (xs, rem') => .ok (v :: xs, rem')
      | c :: rest =>
        if c = ']' then .ok ([v], rest)
        else .error "invalid character after array element"
      | [] => .error "unexpected end of JSON input"

/-- Parse the members of a non-empty JSON object, positioned at the first
key; consumes the closing brace. -/
def parseMembers : Nat → List Char → Except String (List (String × Json) × List Char)
  | 0, _ => .error "maximum nesting depth exceeded"
  | Nat.succ fuel, cs =>
    match skipWs cs with
    | [] => .error "unexpected end of JSON input"
    | c :: rest =>
      if c = '"' then
        match strBody rest with
        | .error e => .error e
        | .ok (key, rest₂) =>
          match skipWs rest₂ with
          | ':' :: rest₃ =>
            match parseVal fuel rest₃ with
            | .error e => .error e
            | .ok (v, rest₄) =>
              match skipWs rest₄ with
              | ',' :: rest₅ =>
                match parseMembers fuel rest₅ with
                | .error e => .error e
                | .ok (fs, rem) => .ok ((String.mk key, v) :: fs, rem)
              | c₅ :: rest₅ =>
                if c₅ = cbrace then .ok ([(String.mk key, v)], rest₅)
                else .error "invalid character after object value"
              | [] => .error "unexpected end of JSON input"
          | _ => .error "invalid character after object key"
      else .error "invalid character looking for object key"

end

/-- Model of encoding/json Unmarshal of a byte slice into an untyped
interface value, as called by ExecutePlan (server.go line 314): parse one
value and require only whitespace after it. -/
def jsonUnmarshal (s : String) : Except String Json :=
  match parseVal (2 * s.data.length + 8) s.data with
  | .error e => .error e
  | .ok (j, rem) =>
    if (skipWs rem).isEmpty then .ok j
    else .error "invalid character after top-level value"

/-- The JSON-RPC protocol version constant (pkg/mcp/types.go). -/
def JSONRPCVersion : String := "2.0"

/-- RPCError (pkg/mcp/types.go): code and message of a JSON-RPC error. -/
structure RPCError where
  code : Int
  message : String
deriving DecidableEq

/-- NewError (pkg/mcp/types.go). -/
def NewError (code : Int) (msg : String) : RPCError :=
  { code := code, message := msg }

/-- RPCResponse (pkg/mcp/types.go): version, optional result payload
(kept as a JSON value, standing for the marshalled json.RawMessage),
optional error, optional id (never set by the dispatcher). -/
structure RPCResponse where
  version : String
  result : Option Json
  error : Option RPCError
  id : Option Int

/-- The zero RPCResponse value, as left in the caller's reply variable
when an entry point returns a raw error without writing the reply. -/
def zeroResponse : RPCResponse :=
  { version := "", result := none, error := none, id := none }

/-- A response carrying only an error, built the way the dispatcher does:
fresh response with the protocol version, error field set, result unset. -/
def errResp (e : RPCError) : RPCResponse :=
  { version := JSONRPCVersion, result := none, error := some e, id := none }

/-- A transport-ready response: protocol version set and exactly one of
result/error populated. -/
def wellFormed (r : RPCResponse) : Prop :=
  r.version = JSONRPCVersion ∧
    ((r.error.isSome ∧ r.result = none) ∨ (r.error = none ∧ r.result.isSome))

/-- Parameters handed to a tool handler: the Go map may be nil (action
without a parameters object, or a parameters field of the wrong type),
modelled as none. -/
abbrev Params := Option (List (String × Json))

/-- Handler Contract: a tool handler takes the parameter bag and either
succeeds or fails with a message. The Go context argument (timeout
plumbing) and registry argument are external to the dispatch logic and
elided. -/
abbrev Handler := Params → Except String Unit

/-- True when a handler run succeeded. -/
def exOk : Except String Unit → Bool
  | .ok _ => true
  | .error _ => false

/-- One handler invocation performed by the dispatcher: the resolved tool
name and the parameters passed. -/
abbrev Invocation := String × Params

/-- RegisteredTool (server.go lines 38-44). -/
structure RegisteredTool where
  name : String
  description : String
  inputSchema : List (String × Json)
  handler : Handler
  serviceName : String

/-- Server state (server.go lines 53-58): the tool catalogue (a Go map,
modelled as an association list with replace-on-insert) and the
registered service names. The Docker client and LLM handle are external
collaborators and carry no dispatch-relevant state. -/
structure Server where
  tools : List (String × RegisteredTool)
  services : List String

/-- Go map read: first match in the association list (inserts replace in
place, so keys are unique). -/
def mapGet (l : List (String × RegisteredTool)) (k : String) : Option RegisteredTool :=
  match l with
  | [] => none
  | (k', v) :: rest => if k' = k then some v else mapGet rest k

/-- Go map write: replace the entry in place, or append a new one. -/
def mapInsert (l : List (String × RegisteredTool)) (k : String) (v : RegisteredTool) :
    List (String × RegisteredTool) :=
  match l with
  | [] => [(k, v)]
  | (k', v') :: rest => if k' = k then (k, v) :: rest else (k', v') :: mapInsert rest k v

/-- RegisterTool (server.go lines 106-114): unconditionally writes the
catalogue entry under the given name. The ServiceName field is never set
and keeps its zero value. The function is total: no duplicate-detection
error path exists. -/
def Server.RegisterTool (s : Server) (name description : String)
    (inputSchema : List (String × Json)) (handler : Handler) : Server :=
  { s with
    tools := mapInsert s.tools name
      { name := name, description := description, inputSchema := inputSchema,
        handler := handler, serviceName := "" } }

/-- listTools (server.go lines 124-130): one formatted line per tool. -/
def Server.listTools (s : Server) : List String :=
  s.tools.map (fun p => p.2.name ++ ": " ++ p.2.description)

/-- listServices (server.go lines 133-139). -/
def Server.listServices (s : Server) : List String :=
  s.services

/-- listToolsForService (server.go lines 142-150): tools whose service
name equals the query after strings.ToLower on both sides. -/
def Server.listToolsForService (s : Server) (serviceName : String) : List String :=
  (s.tools.filter (fun p => strToLower p.2.serviceName == strToLower serviceName)).map
    (fun p => p.2.name ++ ": " ++ p.2.description)

/-- IsListServicesQuery (utils.go lines 124-130). -/
def IsListServicesQuery (query : String) : Bool :=
  let lower := strToLower query
  strContains lower "service" &&
    (strContains lower "list" || strContains lower "available" || strContains lower "what are")

/-- IsListToolsQuery (utils.go lines 133-139). -/
def IsListToolsQuery (query : String) : Bool :=
  let lower := strToLower query
  strContains lower "tool" &&
    (strContains lower "list" || strContains lower "available" || strContains lower "what are")

/-- ExtractServiceName (utils.go lines 9-17); the Go (string, bool) pair
is an Option. -/
def ExtractServiceName (input : String) : Option String :=
  if strContains input "docker" then some "docker"
  else if strContains input "git" then some "git"
  else none

/-- json.Marshal of a Go string slice built by appends starting from a
nil slice: a nil (empty) slice marshals to JSON null, a non-empty one to
an array of strings. -/
def marshalStrList (l : List String) : Json :=
  if l.isEmpty then Json.null else Json.arr (l.map Json.str)

/-- ToolCallArgs (pkg/mcp/types.go lines 49-52). -/
structure ToolCallArgs where
  toolName : String
  parameters : Params

/-- Outcome of a dispatcher entry point with the Go signature
(args, reply *RPCResponse) error: the raw error return (nil represented
as none), the reply written (the zero response when it was never
written), and the handler invocations performed, in order. -/
structure ExecResult where
  err : Option String
  reply : RPCResponse
  trace : List Invocation

/-- The parameters a plan step hands to the handler (server.go line 363):
the parameters field type-asserted to a map, nil on absence or wrong
type. -/
def paramsOf (o : Jobj) : Params :=
  match jlookup o "parameters" with
  | some (Json.obj fs) => some fs
  | _ => none

/-- The success payload marshalled at the end of ExecutePlan (server.go
lines 377-380); encoding/json sorts map keys. -/
def planSuccessJson : Json :=
  Json.obj [("message", Json.str "Plan executed successfully"), ("status", Json.str "success")]

/-- The action loop of ExecutePlan (server.go lines 351-375) with an
accumulator of the handler invocations already performed: per step, read
the action string (missing/non-string/empty fails with -32602), strip one
leading "functions." namespace copy, resolve against the catalogue
(-32601 when absent), run the handler (-32000 on handler error), and
stop at the first failure. -/
def execPlanLoop (s : Server) : List Jobj → List Invocation → RPCResponse × List Invocation
  | [], tr => ({ version := JSONRPCVersion, result := some planSuccessJson, error := none, id := none }, tr)
  | o :: rest, tr =>
    match jlookup o "action" with
    | some (Json.str a) =>
      if a = "" then (errResp (NewError (-32602) "invalid action format"), tr)
      else
        let a' := if hasPre a "functions." then trimPre a "functions." else a
        let ps := paramsOf o
        match mapGet s.tools a' with
        | some t =>
          match t.handler ps with
          | .ok _ => execPlanLoop s rest (tr ++ [(a', ps)])
          | .error e =>
            (errResp (NewError (-32000) ("failed to execute tool " ++ a' ++ ": " ++ e)),
              tr ++ [(a', ps)])
        | none => (errResp (NewError (-32601) ("unknown action: " ++ a')), tr)
    | _ => (errResp (NewError (-32602) "invalid action format"), tr)

/-- The shape switch of ExecutePlan (server.go lines 321-339): an array
must contain only objects, a single object becomes a one-element plan,
anything else is a parse error. -/
def planOfRaw : Json → Except RPCError (List Jobj)
  | Json.arr elems => collectObjs elems
  | Json.obj m => .ok [m]
  | _ => .error (NewError (-32700) "plan JSON is neither an object nor an array")
where
  collectObjs : List Json → Except RPCError (List Jobj)
    | [] => .ok []
    | Json.obj m :: rest => (collectObjs rest).map (fun l => m :: l)
    | _ :: _ => .error (NewError (-32700) "plan array contains non-object element")

/-- ExecutePlan (server.go lines 300-388): nil/empty plan string is
-32602, JSON unmarshal failure is -32700, shape errors per planOfRaw, an
empty action list is -32602, otherwise the action loop runs. Every branch
returns a nil raw error: all failures are written into the reply. -/
def ExecutePlan (s : Server) (planJSON : Option String) : ExecResult :=
  match planJSON with
  | none => ⟨none, errResp (NewError (-32602) "ExecutePlan received empty plan"), []⟩
  | some str =>
    if str = "" then ⟨none, errResp (NewError (-32602) "ExecutePlan received empty plan"), []⟩
    else
      match jsonUnmarshal str with
      | .error e => ⟨none, errResp (NewError (-32700) ("failed to parse plan JSON: " ++ e)), []⟩
      | .ok raw =>
        match planOfRaw raw with
        | .error er => ⟨none, errResp er, []⟩
        | .ok plan =>
          if plan.isEmpty then
            ⟨none, errResp (NewError (-32602) "received empty plan from LLM"), []⟩
          else
            let r := execPlanLoop s plan []
            ⟨none, r.1, r.2⟩

/-- CallTool (server.go lines 391-423): direct invocation of one tool;
unknown name is -32601, handler failure is -32000, success marshals a
confirmation payload (keys in encoding/json sorted order). Every branch
returns a nil raw error. -/
def CallTool (s : Server) (args : ToolCallArgs) : ExecResult :=
  match mapGet s.tools args.toolName with
  | none => ⟨none, errResp (NewError (-32601) ("unknown tool: " ++ args.toolName)), []⟩
  | some t =>
    match t.handler args.parameters with
    | .error e =>
      ⟨none, errResp (NewError (-32000) ("failed to execute tool " ++ args.toolName ++ ": " ++ e)),
        [(args.toolName, args.parameters)]⟩
    | .ok _ =>
      ⟨none,
        { version := JSONRPCVersion,
          result := some (Json.obj
            [("message", Json.str ("Tool " ++ args.toolName ++ " executed successfully")),
             ("status", Json.str "success")]),
          error := none, id := none },
        [(args.toolName, args.parameters)]⟩

/-- Outcome of ProcessInstruction: the raw error return, the reply
written (zero response when never written), whether the language model
was consulted, and the handler invocations performed. -/
structure ProcResult where
  err : Option String
  reply : RPCResponse
  llmCalled : Bool
  trace : List Invocation

/-- ProcessInstruction (server.go lines 153-206); the model interaction
of CallLLM (lines 239-297, an external collaborator) is a parameter
mapping the instruction to either a generated plan string or a failure.
Meta-queries are answered from the registry without a model call; a
model failure is returned as a raw wrapped error (line 197), not written
into the reply; otherwise the generated plan is executed. -/
def ProcessInstruction (s : Server) (callLLM : String → Except String String)
    (instruction : String) : ProcResult :=
  let lowerInst := strToLower instruction
  if IsListServicesQuery lowerInst then
    ⟨none,
      { version := JSONRPCVersion, result := some (marshalStrList s.listServices),
        error := none, id := none },
      false, []⟩
  else if IsListToolsQuery lowerInst then
    match ExtractServiceName lowerInst with
    | some svcName =>
      ⟨none,
        { version := JSONRPCVersion,
          result := some (marshalStrList (s.listToolsForService svcName)),
          error := none, id := none },
        false, []⟩
    | none =>
      ⟨none,
        { version := JSONRPCVersion, result := some (marshalStrList s.listTools),
          error := none, id := none },
        false, []⟩
  else
    match callLLM instruction with
    | .error e => ⟨some ("ProcessInstruction: failed to call LLM: " ++ e), zeroResponse, true, []⟩
    | .ok plan =>
      let r := ExecutePlan s (some plan)
      match r.err with
      | some e =>
        ⟨some ("ProcessInstruction: failed to execute plan: " ++ e), zeroResponse, true, r.trace⟩
      | none => ⟨none, r.reply, true, r.trace⟩

/-- ToolConfig (pkg/reg/servicestools.go lines 128-134): a declarative
tool entry; plugin is the importable source reference handed to the
interpreter. -/
structure ToolConfig where
  name : String
  description : String
  enabled : Bool
  schema : List (String × Json)
  plugin : String

/-- ServiceConfig (pkg/reg/servicestools.go lines 121-125). -/
structure ServiceConfig where
  name : String
  enabled : Bool
  tools : List ToolConfig

/-- Config (pkg/reg/servicestools.go lines 116-118). -/
structure Config where
  services : List ServiceConfig

/-- Outcome of evaluating one tool's plugin reference in a fresh
interpreter instance (servicestools.go lines 168-207, the yaegi runtime
being an external collaborator): the import evaluation may fail, the
Handler symbol may be missing, the symbol may have the wrong signature,
or a handler is produced. -/
inductive PluginEval where
  | importFail : String → PluginEval
  | symbolFail : String → PluginEval
  | badSig : PluginEval
  | ok : Handler → PluginEval

/-- True when the plugin evaluation produced a handler. -/
def PluginEval.isOk : PluginEval → Bool
  | .ok _ => true
  | _ => false

/-- The error message RegisterToolsFromConfig produces for a failed
plugin evaluation of the given tool (servicestools.go lines 188-208);
none on success. -/
def evalErrMsg (t : ToolConfig) : PluginEval → Option String
  | .importFail m => some ("failed to evaluate plugin for tool [" ++ t.name ++ "]: " ++ m)
  | .symbolFail m => some ("failed to retrieve Handler symbol for tool " ++ t.name ++ ": " ++ m)
  | .badSig => some ("handler for tool " ++ t.name ++ " does not have the correct signature")
  | .ok _ => none

/-- The inner tool loop of RegisterToolsFromConfig (servicestools.go
lines 161-212): disabled tools are skipped before any evaluation; an
enabled tool's plugin is evaluated and the first failure aborts with its
error, leaving earlier registrations in place. -/
def loadTools (ev : String → PluginEval) (s : Server) :
    List ToolConfig → Server × Option String
  | [] => (s, none)
  | t :: rest =>
    if t.enabled then
      match ev t.plugin with
      | .importFail m =>
        (s, some ("failed to evaluate plugin for tool [" ++ t.name ++ "]: " ++ m))
      | .symbolFail m =>
        (s, some ("failed to retrieve Handler symbol for tool " ++ t.name ++ ": " ++ m))
      | .badSig =>
        (s, some ("handler for tool " ++ t.name ++ " does not have the correct signature"))
      | .ok h => loadTools ev (s.RegisterTool t.name t.description t.schema h) rest
    else loadTools ev s rest

/-- The outer service loop of RegisterToolsFromConfig (servicestools.go
lines 157-214): disabled services are skipped whole; a tool failure in
one service aborts the remaining services. -/
def loadSvcs (ev : String → PluginEval) (s : Server) :
    List ServiceConfig → Server × Option String
  | [] => (s, none)
  | svc :: rest =>
    if svc.enabled then
      match loadTools ev s svc.tools with
      | (s', none) => loadSvcs ev s' rest
      | (s', some e) => (s', some e)
    else loadSvcs ev s rest

/-- RegisterToolsFromConfig (servicestools.go lines 151-215) on an
already-parsed configuration (YAML reading is an external collaborator):
returns the final registry state and the first load error, if any. -/
def RegisterToolsFromConfig (ev : String → PluginEval) (cfg : Config) (s : Server) :
    Server × Option String :=
  loadSvcs ev s cfg.services

/-- The configuration with disabled services and tools removed. -/
def enabledOnly (cfg : Config) : Config :=
  ⟨(cfg.services.filter (fun svc => svc.enabled)).map
    (fun svc => { svc with tools := svc.tools.filter (fun t => t.enabled) })⟩

/-- The flattened sequence of enabled tools of enabled services, in
loading order. -/
def enabledSeq (cfg : Config) : List ToolConfig :=
  ((cfg.services.filter (fun svc => svc.enabled)).map
    (fun svc => svc.tools.filter (fun t => t.enabled))).flatten

/-- Registration of a run of successfully-loading tools: folds
RegisterTool over the list using the handler each plugin evaluates to
(identity on tools whose evaluation failed; used only under the
hypothesis that all evaluations in the list succeed). -/
def regFold (ev : String → PluginEval) (s : Server) : List ToolConfig → Server
  | [] => s
  | t :: rest =>
    match ev t.plugin with
    | .ok h => regFold ev (s.RegisterTool t.name t.description t.schema h) rest
    | _ => regFold ev s rest

/-- One RegisterTool call's arguments (the public entry point has no
service-name parameter). -/
structure RegCall where
  name : String
  description : String
  schema : List (String × Json)
  handler : Handler

/-- Replay a sequence of RegisterTool calls. -/
def applyRegs (s : Server) : List RegCall → Server
  | [] => s
  | c :: rest => applyRegs (s.RegisterTool c.name c.description c.schema c.handler) rest

/-- The resolved action name of a plan step, exactly as the loop computes
it: the action field must be a non-empty string, and one leading
"functions." copy is stripped. -/
def actionName (o : Jobj) : Option String :=
  match jlookup o "action" with
  | some (Json.str a) =>
    if a = "" then none
    else some (if hasPre a "functions." then trimPre a "functions." else a)
  | _ => none

/-- A plan step that the loop executes successfully against the given
registry: the action resolves to a registered tool and its handler
accepts the step's parameters. -/
def stepRunsOk (s : Server) (o : Jobj) : Bool :=
  match actionName o with
  | some a =>
    match mapGet s.tools a with
    | some t => exOk (t.handler (paramsOf o))
    | none => false
  | none => false

/-- The invocation a successfully-executing step performs. -/
def invOf (o : Jobj) : Invocation :=
  ((actionName o).getD "", paramsOf o)

/-- A handler that always succeeds (test fixture). -/
def okHandler : Handler := fun _ => Except.ok ()

/-- Server with one tool named a and two services (test fixture). -/
def srvA : Server :=
  ⟨[("a", ⟨"a", "tool a", [], okHandler, ""⟩)], ["docker", "git"]⟩

/-- Server with no tools and no services (test fixture). -/
def srvEmpty : Server := ⟨[], []⟩

/-- Server whose only tool is named functions.a (test fixture). -/
def srvFn : Server :=
  ⟨[("functions.a", ⟨"functions.a", "d", [], okHandler, ""⟩)], []⟩

/-- Server with one tool named pull_image (test fixture). -/
def srvPull : Server :=
  ⟨[("pull_image", ⟨"pull_image", "pulls an image", [], okHandler, ""⟩)], []⟩

/-- Server with one tool owned by the service Docker (test fixture). -/
def srvDocker : Server :=
  ⟨[("pull", ⟨"pull", "pulls", [], okHandler, "Docker"⟩)], []⟩

/-- A handler that always fails (test fixture). -/
def failHandler : Handler := fun _ => Except.error "boom"

/-- A top-level JSON value that is neither an object nor an array. -/
def notObjArr : Json → Bool
  | Json.obj _ => false
  | Json.arr _ => false
  | _ => true

/-- Enabled tool whose plugin reference resolves (loader test fixture). -/
def goodTool : ToolConfig :=
  { name := "good", description := "works", enabled := true, schema := [], plugin := "good" }

/-- Disabled tool with a broken plugin reference (loader test fixture). -/
def brokenTool : ToolConfig :=
  { name := "broken", description := "broken", enabled := false, schema := [],
    plugin := "broken" }

/-- Enabled tool with a failing plugin reference (loader test fixture). -/
def badTool : ToolConfig :=
  { name := "bad", description := "fails to load", enabled := true, schema := [],
    plugin := "bad" }

/-- Enabled tool listed after the failing one (loader test fixture). -/
def afterTool : ToolConfig :=
  { name := "after", description := "never reached", enabled := true, schema := [],
    plugin := "after" }

/-- Configuration with an enabled service holding a good and a disabled
broken tool, plus a disabled service holding a broken tool (loader test
fixture for the disabled-entries claim). -/
def cfgDisabled : Config :=
  ⟨[{ name := "docker", enabled := true, tools := [goodTool, brokenTool] },
    { name := "legacy", enabled := false, tools := [badTool] }]⟩

/-- Configuration whose enabled tool sequence is good, bad, after
(loader test fixture for the failure-aborts claim). -/
def cfgFailing : Config :=
  ⟨[{ name := "docker", enabled := true, tools := [goodTool, badTool, afterTool] }]⟩

/-- Plugin evaluation where only the plugin reference good resolves and
every other reference fails to import (loader test fixture). -/
def evStrict : String → PluginEval :=
  fun p => if p = "good" then PluginEval.ok okHandler else PluginEval.importFail "no such module"

/-- Plugin evaluation agreeing with evStrict on good but failing
differently elsewhere (loader test fixture for evaluation-independence on
disabled entries). -/
def evStrict' : String → PluginEval :=
  fun p => if p = "good" then PluginEval.ok okHandler else PluginEval.badSig

/-- Reading back the key just written returns the new entry. -/
theorem mapGet_insert_self (l : List (String × RegisteredTool)) (k : String)
    (v : RegisteredTool) : mapGet (mapInsert l k v) k = some v := by
  induction l with
  | nil => simp [mapInsert, mapGet]
  | cons p rest ih =>
    obtain ⟨k', v'⟩ := p
    by_cases h : k' = k
    · simp [mapInsert, h, mapGet]
    · simp [mapInsert, h, mapGet, ih]

/-- Every entry of an insert is the new pair or an old entry. -/
theorem mem_mapInsert (l : List (String × RegisteredTool)) (k : String)
    (v : RegisteredTool) (p : String × RegisteredTool) (hp : p ∈ mapInsert l k v) :
    p = (k, v) ∨ p ∈ l := by
  induction l with
  | nil => simp [mapInsert] at hp; simp [hp]
  | cons q rest ih =>
    obtain ⟨k', v'⟩ := q
    by_cases h : k' = k
    · simp [mapInsert, h] at hp
      rcases hp with h1 | h1
      · exact Or.inl (by simp [h1])
      · exact Or.inr (by simp [h1])
    · simp [mapInsert, h] at hp
      rcases hp with h1 | h1
      · exact Or.inr (by simp [h1])
      · rcases ih h1 with h2 | h2
        · exact Or.inl h2
        · exact Or.inr (by simp [h2])

/-- C5: For every registry state and every query string,
listToolsForService returns exactly the registered tools whose
serviceName equals the query up to ASCII case folding (first conjunct:
membership characterization of the result; second conjunct: queries that
agree after case folding get the same answer, so a tool with serviceName
Docker is returned for docker, DOCKER and Docker alike). -/
theorem C5_listToolsForService_case_fold (s : Server) (q : String) :
    (∀ x, x ∈ s.listToolsForService q ↔
      ∃ p ∈ s.tools, strToLower p.2.serviceName = strToLower q ∧
        x = p.2.name ++ ": " ++ p.2.description) ∧
    (∀ q', strToLower q' = strToLower q →
      s.listToolsForService q' = s.listToolsForService q) := by
  constructor
  · intro x
    simp only [Server.listToolsForService, List.mem_map, List.mem_filter, beq_iff_eq]
    constructor
    · rintro ⟨p, ⟨hmem, heq⟩, rfl⟩
      exact ⟨p, hmem, heq, rfl⟩
    · rintro ⟨p, hmem, heq, rfl⟩
      exact ⟨p, ⟨hmem, heq⟩, rfl⟩
  · intro q' h
    simp only [Server.listToolsForService, h]

/-- C8: Re-registering under an existing name silently replaces the
entry: the catalogue afterwards maps the name to the second tool (with
the second handler), and a direct call of that name consults only the
second handler. RegisterTool is a total function with no error path, so
no duplicate-detection error can be raised. -/
theorem C8_register_last_write_wins (s : Server) (n d₁ d₂ : String)
    (sch₁ sch₂ : List (String × Json)) (h₁ h₂ : Handler) :
    mapGet ((s.RegisterTool n d₁ sch₁ h₁).RegisterTool n d₂ sch₂ h₂).tools n =
      some ⟨n, d₂, sch₂, h₂, ""⟩ ∧
    ∀ ps, (CallTool ((s.RegisterTool n d₁ sch₁ h₁).RegisterTool n d₂ sch₂ h₂) ⟨n, ps⟩).reply =
      (match h₂ ps with
       | .ok _ =>
         { version := JSONRPCVersion,
           result := some (Json.obj
             [("message", Json.str ("Tool " ++ n ++ " executed successfully")),
              ("status", Json.str "success")]),
           error := none, id := none }
       | .error e => errResp (NewError (-32000) ("failed to execute tool " ++ n ++ ": " ++ e))) := by
  have hget : mapGet ((s.RegisterTool n d₁ sch₁ h₁).RegisterTool n d₂ sch₂ h₂).tools n =
      some ⟨n, d₂, sch₂, h₂, ""⟩ := by
    simp only [Server.RegisterTool]
    exact mapGet_insert_self _ n _
  refine ⟨hget, ?_⟩
  intro ps
  simp only [CallTool, hget]
  cases h₂ ps <;> rfl

/-- C10: Every tool registered through the public RegisterTool entry
point is stored with an empty serviceName, so a server built only from
RegisterTool calls answers listToolsForService with the empty list for
every query that does not lower-case to the empty string, and with the
full tool list for a query that does. -/
theorem C10_registerTool_empty_serviceName (calls : List RegCall) (q : String) :
    (∀ p ∈ (applyRegs srvEmpty calls).tools, p.2.serviceName = "") ∧
    (applyRegs srvEmpty calls).listToolsForService q =
      (if strToLower q = "" then (applyRegs srvEmpty calls).listTools else []) := by
  have hall : ∀ (s : Server), (∀ p ∈ s.tools, p.2.serviceName = "") →
      ∀ p ∈ (applyRegs s calls).tools, p.2.serviceName = "" := by
    induction calls with
    | nil => intro s hs; exact hs
    | cons c rest ih =>
      intro s hs
      apply ih
      intro p hp
      rcases mem_mapInsert s.tools c.name _ p hp with h | h
      · simp [h]
      · exact hs p h
  have hall' : ∀ p ∈ (applyRegs srvEmpty calls).tools, p.2.serviceName = "" := by
    apply hall
    intro p hp
    simp [srvEmpty] at hp
  refine ⟨hall', ?_⟩
  by_cases hq : strToLower q = ""
  · simp only [Server.listToolsForService, Server.listTools, hq, if_pos rfl]
    congr 1
    apply List.filter_eq_self.mpr
    intro p hp
    rw [hall' p hp]
    simp [strToLower]
  · rw [if_neg hq]
    simp only [Server.listToolsForService]
    rw [List.filter_eq_nil_iff.mpr, List.map_nil]
    intro p hp
    rw [hall' p hp]
    simp only [beq_iff_eq]
    intro h
    exact hq h.symm

/-- C4 counterexample: with no services registered, a services-query
answer is JSON null (the marshalling of a nil Go slice), not the JSON
array of service names (which would be the empty array), so the claim
that the result is always the JSON array of registered service names
fails at the empty registry. -/
theorem C4_empty_registry_counterexample :
    (ProcessInstruction srvEmpty (fun _ => Except.error "down")
        "what services are available").reply.result = some Json.null ∧
    some Json.null ≠ some (Json.arr []) := by
  refine ⟨rfl, ?_⟩
  intro h
  injection h with h'
  exact Json.noConfusion h'

/-- C4 (amended): an instruction the services-query predicate matches is
answered directly from the registry — the reply carries the JSON
marshalling of the registered service-name list (a JSON array of the
names whenever at least one service is registered, JSON null for the nil
name slice) and the language model is never called. -/
theorem C4_services_query_no_model_call (s : Server)
    (llm : String → Except String String) (inst : String)
    (h : IsListServicesQuery (strToLower inst) = true) :
    ProcessInstruction s llm inst =
      ⟨none,
        { version := JSONRPCVersion, result := some (marshalStrList s.listServices),
          error := none, id := none },
        false, []⟩ ∧
    (s.services ≠ [] → marshalStrList s.listServices = Json.arr (s.services.map Json.str)) := by
  constructor
  · simp [ProcessInstruction, h]
  · intro hne
    simp [marshalStrList, Server.listServices, hne]

/-- C4 witness: the concrete instruction of the spec scenario, against a
registry with two services and a model stub that would fail if called. -/
theorem C4_services_query_no_model_call_witness :
    ProcessInstruction srvA (fun _ => Except.error "down") "what services are available" =
      ⟨none,
        { version := JSONRPCVersion, result := some (marshalStrList srvA.listServices),
          error := none, id := none },
        false, []⟩ ∧
    (srvA.services ≠ [] → marshalStrList srvA.listServices =
      Json.arr (srvA.services.map Json.str)) :=
  C4_services_query_no_model_call srvA (fun _ => Except.error "down")
    "what services are available" (by decide)

/-- Error-only responses are well-formed. -/
theorem wellFormed_errResp (e : RPCError) : wellFormed (errResp e) := by
  exact ⟨rfl, Or.inl ⟨rfl, rfl⟩⟩

/-- The reply produced by the action loop is always well-formed,
whatever the plan and the accumulated trace. -/
theorem execPlanLoop_wellFormed (s : Server) (plan : List Jobj) (tr : List Invocation) :
    wellFormed (execPlanLoop s plan tr).1 := by
  induction plan generalizing tr with
  | nil => exact ⟨rfl, Or.inr ⟨rfl, rfl⟩⟩
  | cons o rest ih =>
    simp only [execPlanLoop]
    repeat' split
    all_goals first
      | exact ih _
      | exact wellFormed_errResp _

/-- ExecutePlan returns a nil raw error and a well-formed reply on every
input. -/
theorem ExecutePlan_total_envelope (s : Server) (p : Option String) :
    (ExecutePlan s p).err = none ∧ wellFormed (ExecutePlan s p).reply := by
  cases p with
  | none => exact ⟨rfl, wellFormed_errResp _⟩
  | some str =>
    simp only [ExecutePlan]
    repeat' split
    all_goals first
      | exact ⟨rfl, wellFormed_errResp _⟩
      | exact ⟨rfl, execPlanLoop_wellFormed s _ []⟩

/-- CallTool returns a nil raw error and a well-formed reply on every
input. -/
theorem CallTool_total_envelope (s : Server) (args : ToolCallArgs) :
    (CallTool s args).err = none ∧ wellFormed (CallTool s args).reply := by
  simp only [CallTool]
  repeat' split
  all_goals first
    | exact ⟨rfl, wellFormed_errResp _⟩
    | exact ⟨rfl, rfl, Or.inr ⟨rfl, rfl⟩⟩

/-- C1 counterexample: a model-call failure inside ProcessInstruction is
returned as a raw wrapped error (server.go line 197) and the reply's
error field is never populated — the failure is not captured in the
RPCResponse envelope, contradicting the claim for the model-call-failure
case. -/
theorem C1_model_failure_raw_error_counterexample :
    (ProcessInstruction srvA (fun _ => Except.error "connection refused") "run nginx").err =
      some "ProcessInstruction: failed to call LLM: connection refused" ∧
    (ProcessInstruction srvA (fun _ => Except.error "connection refused")
        "run nginx").reply.error = none := by
  exact ⟨rfl, rfl⟩

/-- C1 (amended): ExecutePlan and CallTool capture every dispatcher-level
failure (empty plan, invalid plan JSON, unknown action or tool, handler
error) inside the RPCResponse envelope and always return a nil raw error
with a well-formed reply; ProcessInstruction does the same whenever it
returns a nil raw error, but a model-call failure is propagated as a raw
wrapped error with the reply left unwritten, rather than being captured
in the envelope. -/
theorem C1_dispatcher_envelope_amended :
    (∀ (s : Server) (p : Option String),
      (ExecutePlan s p).err = none ∧ wellFormed (ExecutePlan s p).reply) ∧
    (∀ (s : Server) (args : ToolCallArgs),
      (CallTool s args).err = none ∧ wellFormed (CallTool s args).reply) ∧
    (∀ (s : Server) (llm : String → Except String String) (inst : String),
      ((ProcessInstruction s llm inst).err = none →
        wellFormed (ProcessInstruction s llm inst).reply) ∧
      ((ProcessInstruction s llm inst).err ≠ none →
        ∃ e, llm inst = Except.error e ∧
          (ProcessInstruction s llm inst).err =
            some ("ProcessInstruction: failed to call LLM: " ++ e) ∧
          (ProcessInstruction s llm inst).reply = zeroResponse)) := by
  refine ⟨ExecutePlan_total_envelope, CallTool_total_envelope, ?_⟩
  intro s llm inst
  by_cases hsvc : IsListServicesQuery (strToLower inst) = true
  · constructor
    · intro _
      simp only [ProcessInstruction, hsvc, if_pos rfl]
      exact ⟨rfl, Or.inr ⟨rfl, rfl⟩⟩
    · intro hne
      exact absurd (by simp [ProcessInstruction, hsvc]) hne
  · by_cases htool : IsListToolsQuery (strToLower inst) = true
    · constructor
      · intro _
        simp only [ProcessInstruction, hsvc, htool]
        cases hx : ExtractServiceName (strToLower inst) with
        | some svcName => simp only; exact ⟨rfl, Or.inr ⟨rfl, rfl⟩⟩
        | none => simp only; exact ⟨rfl, Or.inr ⟨rfl, rfl⟩⟩
      · intro hne
        apply absurd _ hne
        simp only [ProcessInstruction, hsvc, htool]
        cases hx : ExtractServiceName (strToLower inst) <;> simp
    · cases hl : llm inst with
      | error e =>
        have herr : (ProcessInstruction s llm inst).err =
            some ("ProcessInstruction: failed to call LLM: " ++ e) := by
          simp [ProcessInstruction, hsvc, htool, hl]
        have hrep : (ProcessInstruction s llm inst).reply = zeroResponse := by
          simp [ProcessInstruction, hsvc, htool, hl]
        constructor
        · intro hnone
          rw [herr] at hnone
          cases hnone
        · intro _
          exact ⟨e, rfl, herr, hrep⟩
      | ok plan =>
        have hex := ExecutePlan_total_envelope s (some plan)
        have hrep : ProcessInstruction s llm inst =
            ⟨none, (ExecutePlan s (some plan)).reply, true, (ExecutePlan s (some plan)).trace⟩ := by
          simp [ProcessInstruction, hsvc, htool, hl, hex.1]
        constructor
        · intro _
          rw [hrep]
          exact hex.2
        · intro hne
          rw [hrep] at hne
          exact absurd rfl hne

/-- C1 witness: the amended theorem applied at concrete inputs — an
empty-plan failure captured by ExecutePlan, an unknown-tool failure
captured by CallTool, and a concrete model failure propagated raw by
ProcessInstruction. -/
theorem C1_dispatcher_envelope_amended_witness :
    ((ExecutePlan srvA (some "")).err = none ∧ wellFormed (ExecutePlan srvA (some "")).reply) ∧
    ((CallTool srvA ⟨"nope", none⟩).err = none ∧ wellFormed (CallTool srvA ⟨"nope", none⟩).reply) ∧
    (∃ e, (fun _ => (Except.error "down" : Except String String)) "run nginx" = Except.error e ∧
      (ProcessInstruction srvA (fun _ => Except.error "down") "run nginx").err =
        some ("ProcessInstruction: failed to call LLM: " ++ e) ∧
      (ProcessInstruction srvA (fun _ => Except.error "down") "run nginx").reply = zeroResponse) := by
  obtain ⟨hE, hC, hP⟩ := C1_dispatcher_envelope_amended
  refine ⟨hE srvA (some ""), hC srvA ⟨"nope", none⟩, ?_⟩
  exact (hP srvA (fun _ => Except.error "down") "run nginx").2
    (fun h => Option.noConfusion h)

/-- Destructuring of a resolved action name: the step's action field is a
non-empty string and the resolved name is its prefix-stripped form. -/
theorem actionName_elim (o : Jobj) (a : String) (h : actionName o = some a) :
    ∃ a₀, jlookup o "action" = some (Json.str a₀) ∧ a₀ ≠ "" ∧
      a = (if hasPre a₀ "functions." then trimPre a₀ "functions." else a₀) := by
  unfold actionName at h
  split at h
  · rename_i a₀ heq
    split at h
    · cases h
    · rename_i ha
      exact ⟨a₀, heq, ha, (Option.some.inj h).symm⟩
  · cases h

/-- Destructuring of a successfully-running step: its resolved action
name exists, is registered, and the handler accepts its parameters. -/
theorem stepRunsOk_elim (s : Server) (o : Jobj) (h : stepRunsOk s o = true) :
    ∃ a t, actionName o = some a ∧ mapGet s.tools a = some t ∧
      t.handler (paramsOf o) = Except.ok () := by
  unfold stepRunsOk at h
  split at h
  · rename_i a ha
    split at h
    · rename_i t ht
      cases hh : t.handler (paramsOf o) with
      | ok u => exact ⟨a, t, ha, ht, by cases u; exact hh⟩
      | error e => rw [hh] at h; cases h
    · cases h
  · cases h

/-- A successfully-running step advances the loop, appending its
invocation to the trace. -/
theorem execPlanLoop_cons_ok (s : Server) (o : Jobj) (rest : List Jobj)
    (tr : List Invocation) (h : stepRunsOk s o = true) :
    execPlanLoop s (o :: rest) tr = execPlanLoop s rest (tr ++ [invOf o]) := by
  obtain ⟨a, t, ha, ht, hh⟩ := stepRunsOk_elim s o h
  obtain ⟨a₀, hj, hne, hstrip⟩ := actionName_elim o a ha
  simp only [execPlanLoop, hj]
  rw [if_neg hne]
  simp only [← hstrip, ht, hh]
  simp [invOf, ha]

/-- The loop on a plan whose first non-running step has an unregistered
action name stops there with the method-not-found error, performing
exactly the invocations of the earlier steps. -/
theorem execPlanLoop_unknown (s : Server) (pre : List Jobj) (bad : Jobj) (post : List Jobj)
    (a : String) (tr : List Invocation)
    (hpre : ∀ o ∈ pre, stepRunsOk s o = true)
    (hbad : actionName bad = some a)
    (hunk : mapGet s.tools a = none) :
    execPlanLoop s (pre ++ bad :: post) tr =
      (errResp (NewError (-32601) ("unknown action: " ++ a)), tr ++ pre.map invOf) := by
  induction pre generalizing tr with
  | nil =>
    obtain ⟨a₀, hj, hne, hstrip⟩ := actionName_elim bad a hbad
    simp only [List.nil_append, execPlanLoop, hj]
    rw [if_neg hne]
    simp only [← hstrip, hunk]
    simp
  | cons o rest ih =>
    have ho := hpre o (by simp)
    rw [List.cons_append, execPlanLoop_cons_ok s o _ tr ho,
      ih (tr ++ [invOf o]) (fun o' ho' => hpre o' (List.mem_cons_of_mem o ho'))]
    simp

/-- C2: when step i is the first step of the plan whose prefix-stripped
action name is not registered, ExecutePlan replies with error code -32601
naming that action; the trace shows that exactly the handlers of steps
1..i-1 were invoked (in order) and no handler of step i or any later
step ran; nothing is undone — the earlier invocations remain in the
trace. -/
theorem C2_unknown_action_aborts (s : Server) (str : String) (raw : Json)
    (pre : List Jobj) (bad : Jobj) (post : List Jobj) (a : String)
    (hparse : jsonUnmarshal str = Except.ok raw)
    (hplan : planOfRaw raw = Except.ok (pre ++ bad :: post))
    (hpre : ∀ o ∈ pre, stepRunsOk s o = true)
    (hbad : actionName bad = some a)
    (hunk : mapGet s.tools a = none) :
    ExecutePlan s (some str) =
      ⟨none, errResp (NewError (-32601) ("unknown action: " ++ a)), pre.map invOf⟩ := by
  have hne : str ≠ "" := by
    intro h
    rw [h] at hparse
    exact Except.noConfusion hparse
  have hempty : (pre ++ bad :: post).isEmpty = false := by
    cases pre <;> rfl
  simp only [ExecutePlan, if_neg hne, hparse, hplan, hempty]
  rw [if_neg (by simp [hempty])]
  rw [execPlanLoop_unknown s pre bad post a [] hpre hbad hunk]
  simp

/-- C2 witness: a concrete two-step plan whose first step runs against
the registered tool a and whose second step names the unregistered
action b. -/
theorem C2_unknown_action_aborts_witness :
    ExecutePlan srvA (some "[\x7b\"action\":\"a\"\x7d,\x7b\"action\":\"b\"\x7d]") =
      ⟨none, errResp (NewError (-32601) "unknown action: b"),
        [[("action", Json.str "a")]].map invOf⟩ :=
  C2_unknown_action_aborts srvA "[\x7b\"action\":\"a\"\x7d,\x7b\"action\":\"b\"\x7d]"
    (Json.arr [Json.obj [("action", Json.str "a")], Json.obj [("action", Json.str "b")]])
    [[("action", Json.str "a")]] [("action", Json.str "b")] [] "b"
    rfl rfl (by decide) (by decide) rfl

/-- C3: degenerate plan inputs terminate normally with the documented
codes — the empty string, the empty array and the empty object (whose
single pseudo-step has no action field) all produce -32602; any input the
JSON decoder rejects, and any input whose top-level value is neither an
object nor an array, produce -32700. ExecutePlan is a total function, so
no input crashes it, and the raw error return is nil in every case. -/
theorem C3_empty_and_invalid_plans (s : Server) :
    ExecutePlan s (some "") =
      ⟨none, errResp (NewError (-32602) "ExecutePlan received empty plan"), []⟩ ∧
    ExecutePlan s (some "[]") =
      ⟨none, errResp (NewError (-32602) "received empty plan from LLM"), []⟩ ∧
    ExecutePlan s (some "\x7b\x7d") =
      ⟨none, errResp (NewError (-32602) "invalid action format"), []⟩ ∧
    (∀ str e, str ≠ "" → jsonUnmarshal str = Except.error e →
      ExecutePlan s (some str) =
        ⟨none, errResp (NewError (-32700) ("failed to parse plan JSON: " ++ e)), []⟩) ∧
    (∀ str j, jsonUnmarshal str = Except.ok j → notObjArr j = true →
      ExecutePlan s (some str) =
        ⟨none, errResp (NewError (-32700) "plan JSON is neither an object nor an array"), []⟩) := by
  refine ⟨rfl, rfl, rfl, ?_, ?_⟩
  · intro str e hne hu
    simp only [ExecutePlan, if_neg hne, hu]
  · intro str j hu hshape
    have hne : str ≠ "" := by
      intro h
      rw [h] at hu
      exact Except.noConfusion hu
    simp only [ExecutePlan, if_neg hne, hu]
    cases j with
    | null => rfl
    | bool b => rfl
    | num m => rfl
    | str a => rfl
    | arr xs => cases hshape
    | obj fs => cases hshape

/-- C3 witness: the parse-error conjuncts applied at the concrete inputs
not json (rejected by the decoder) and 42 (a top-level number). -/
theorem C3_empty_and_invalid_plans_witness :
    ExecutePlan srvA (some "not json") =
      ⟨none,
        errResp (NewError (-32700)
          "failed to parse plan JSON: invalid character in literal null"), []⟩ ∧
    ExecutePlan srvA (some "42") =
      ⟨none, errResp (NewError (-32700) "plan JSON is neither an object nor an array"), []⟩ := by
  obtain ⟨-, -, -, h4, h5⟩ := C3_empty_and_invalid_plans srvA
  exact ⟨h4 "not json" "invalid character in literal null" (by decide) rfl,
    h5 "42" (Json.num "42") rfl rfl⟩

/-- Prefixing a string with the namespace marker never yields the empty
string. -/
theorem fnsAppend_ne_empty (rest : String) : "functions." ++ rest ≠ "" := by
  intro h
  have hlen := congrArg String.length h
  rw [String.length_append] at hlen
  rw [show ("functions." : String).length = 10 from rfl] at hlen
  simp at hlen

/-- The namespace marker is a prefix of any string it was prepended to. -/
theorem hasPre_fnsAppend (rest : String) : hasPre ("functions." ++ rest) "functions." = true := by
  unfold hasPre
  rw [String.data_append]
  exact List.isPrefixOf_iff_prefix.mpr (List.prefix_append _ _)

/-- Stripping the namespace marker it was prepended with gives back the
original string. -/
theorem trimPre_fnsAppend (rest : String) : trimPre ("functions." ++ rest) "functions." = rest := by
  unfold trimPre
  rw [String.data_append,
    if_pos (List.isPrefixOf_iff_prefix.mpr (List.prefix_append _ _)),
    List.drop_left]

/-- Replacing, at one position of the plan, a step whose action is the
namespace-prefixed form of a non-empty name not itself starting with the
marker, by the same step with the bare name, leaves the loop's outcome
unchanged. -/
theorem execPlanLoop_strip_eq (s : Server) (pre post : List Jobj) (o₁ o₂ : Jobj)
    (rest : String) (tr : List Invocation)
    (ha₁ : jlookup o₁ "action" = some (Json.str ("functions." ++ rest)))
    (ha₂ : jlookup o₂ "action" = some (Json.str rest))
    (hps : jlookup o₁ "parameters" = jlookup o₂ "parameters")
    (hrne : rest ≠ "")
    (hrp : hasPre rest "functions." = false) :
    execPlanLoop s (pre ++ o₁ :: post) tr = execPlanLoop s (pre ++ o₂ :: post) tr := by
  induction pre generalizing tr with
  | nil =>
    have hpp : paramsOf o₁ = paramsOf o₂ := by
      unfold paramsOf
      rw [hps]
    simp only [List.nil_append, execPlanLoop, ha₁, ha₂]
    rw [if_neg (fnsAppend_ne_empty rest), if_neg hrne]
    simp only [hasPre_fnsAppend, trimPre_fnsAppend, hrp, if_true, Bool.false_eq_true,
      if_false, hpp]
  | cons o pres ih =>
    simp only [List.cons_append, execPlanLoop]
    repeat' split
    all_goals first
      | rfl
      | exact ih _

/-- C9 counterexample: against a registry whose only tool is named
functions.a, the single-step plan with action functions.functions.a
resolves (one stripped copy leaves functions.a) and succeeds, while the
plan with the prefix removed — action functions.a — is stripped again to
a and fails with method not found; the two replies differ, so a
prefix-carrying action does not always execute identically to its
prefix-removed form. -/
theorem C9_double_namespace_counterexample :
    (ExecutePlan srvFn (some "[\x7b\"action\":\"functions.functions.a\"\x7d]")).reply.error =
      none ∧
    (ExecutePlan srvFn (some "[\x7b\"action\":\"functions.a\"\x7d]")).reply.error =
      some (NewError (-32601) "unknown action: a") ∧
    (ExecutePlan srvFn (some "[\x7b\"action\":\"functions.functions.a\"\x7d]")).reply.error ≠
      (ExecutePlan srvFn (some "[\x7b\"action\":\"functions.a\"\x7d]")).reply.error := by
  refine ⟨rfl, rfl, ?_⟩
  decide

/-- C9 (amended): for an action name functions.rest whose remainder rest
is non-empty and does not itself start with functions., the plan step
resolves and executes identically to the same step with the bare name
rest: two plan texts that parse to the same step list except for that one
action field produce identical ExecutePlan outcomes (reply and
invocation trace alike). -/
theorem C9_namespace_strip_amended (s : Server) (str₁ str₂ : String) (raw₁ raw₂ : Json)
    (pre post : List Jobj) (o₁ o₂ : Jobj) (rest : String)
    (hp₁ : jsonUnmarshal str₁ = Except.ok raw₁)
    (hq₁ : planOfRaw raw₁ = Except.ok (pre ++ o₁ :: post))
    (hp₂ : jsonUnmarshal str₂ = Except.ok raw₂)
    (hq₂ : planOfRaw raw₂ = Except.ok (pre ++ o₂ :: post))
    (ha₁ : jlookup o₁ "action" = some (Json.str ("functions." ++ rest)))
    (ha₂ : jlookup o₂ "action" = some (Json.str rest))
    (hps : jlookup o₁ "parameters" = jlookup o₂ "parameters")
    (hrne : rest ≠ "")
    (hrp : hasPre rest "functions." = false) :
    ExecutePlan s (some str₁) = ExecutePlan s (some str₂) := by
  have hne₁ : str₁ ≠ "" := by
    intro h
    rw [h] at hp₁
    exact Except.noConfusion hp₁
  have hne₂ : str₂ ≠ "" := by
    intro h
    rw [h] at hp₂
    exact Except.noConfusion hp₂
  have hemp₁ : (pre ++ o₁ :: post).isEmpty = false := by cases pre <;> rfl
  have hemp₂ : (pre ++ o₂ :: post).isEmpty = false := by cases pre <;> rfl
  simp only [ExecutePlan, if_neg hne₁, if_neg hne₂, hp₁, hp₂, hq₁, hq₂]
  rw [if_neg (by simp [hemp₁]), if_neg (by simp [hemp₂]),
    execPlanLoop_strip_eq s pre post o₁ o₂ rest [] ha₁ ha₂ hps hrne hrp]

/-- C9 witness: the spec's example — functions.pull_image versus
pull_image as single-step plans against a registry holding pull_image. -/
theorem C9_namespace_strip_amended_witness :
    ExecutePlan srvPull (some "[\x7b\"action\":\"functions.pull_image\"\x7d]") =
      ExecutePlan srvPull (some "[\x7b\"action\":\"pull_image\"\x7d]") :=
  C9_namespace_strip_amended srvPull
    "[\x7b\"action\":\"functions.pull_image\"\x7d]" "[\x7b\"action\":\"pull_image\"\x7d]"
    (Json.arr [Json.obj [("action", Json.str "functions.pull_image")]])
    (Json.arr [Json.obj [("action", Json.str "pull_image")]])
    [] [] [("action", Json.str "functions.pull_image")] [("action", Json.str "pull_image")]
    "pull_image" rfl rfl rfl rfl rfl rfl rfl (by decide) (by decide)

/-- The tool loop ignores disabled entries: filtering them away first
changes nothing. -/
theorem loadTools_filter_enabled (ev : String → PluginEval) (s : Server)
    (l : List ToolConfig) :
    loadTools ev s l = loadTools ev s (l.filter (fun t => t.enabled)) := by
  induction l generalizing s with
  | nil => rfl
  | cons t rest ih =>
    by_cases h : t.enabled = true
    · cases hev : ev t.plugin <;> simp [loadTools, List.filter_cons, h, hev, ih]
    · simp [loadTools, List.filter_cons, h, ih]

/-- The tool loop over a concatenation runs the first part and, only if
it fully succeeded, continues with the second from the reached state. -/
theorem loadTools_append (ev : String → PluginEval) (s : Server) (l₁ l₂ : List ToolConfig) :
    loadTools ev s (l₁ ++ l₂) =
      (match loadTools ev s l₁ with
       | (s', none) => loadTools ev s' l₂
       | (s', some e) => (s', some e)) := by
  induction l₁ generalizing s with
  | nil => rfl
  | cons t rest ih =>
    by_cases h : t.enabled = true
    · cases hev : ev t.plugin <;> simp [loadTools, h, hev, ih]
    · simp [loadTools, h, ih]

/-- The tool loop's result depends on the evaluator only at enabled
entries. -/
theorem loadTools_congr (ev₁ ev₂ : String → PluginEval) (s : Server) (l : List ToolConfig)
    (h : ∀ t ∈ l, t.enabled = true → ev₁ t.plugin = ev₂ t.plugin) :
    loadTools ev₁ s l = loadTools ev₂ s l := by
  induction l generalizing s with
  | nil => rfl
  | cons t rest ih =>
    by_cases he : t.enabled = true
    · have hev := h t (by simp) he
      cases hev₂ : ev₂ t.plugin <;>
        simp [loadTools, he, hev, hev₂, ih _ (fun t' ht' => h t' (by simp [ht']))]
    · simp [loadTools, he, ih _ (fun t' ht' => h t' (by simp [ht']))]

/-- The service loop equals the tool loop over the flattened sequence of
enabled tools of enabled services. -/
theorem loadSvcs_flatten (ev : String → PluginEval) (s : Server)
    (svcs : List ServiceConfig) :
    loadSvcs ev s svcs =
      loadTools ev s
        (((svcs.filter (fun svc => svc.enabled)).map
          (fun svc => svc.tools.filter (fun t => t.enabled))).flatten) := by
  induction svcs generalizing s with
  | nil => rfl
  | cons svc rest ih =>
    by_cases h : svc.enabled = true
    · simp only [loadSvcs, h, if_true, List.filter_cons, List.map_cons, List.flatten_cons]
      rw [loadTools_append, loadTools_filter_enabled ev s svc.tools]
      rcases hlt : loadTools ev s (svc.tools.filter (fun t => t.enabled)) with ⟨s', e⟩
      cases e <;> simp [hlt, ih]
    · simp [loadSvcs, h, ih, List.filter_cons]

/-- RegisterToolsFromConfig equals the tool loop over the enabled
sequence. -/
theorem RegisterToolsFromConfig_eq_seq (ev : String → PluginEval) (cfg : Config)
    (s : Server) :
    RegisterToolsFromConfig ev cfg s = loadTools ev s (enabledSeq cfg) :=
  loadSvcs_flatten ev s cfg.services

/-- Every entry of the enabled sequence is enabled. -/
theorem enabledSeq_enabled (cfg : Config) : ∀ t ∈ enabledSeq cfg, t.enabled = true := by
  intro t ht
  simp only [enabledSeq, List.mem_flatten, List.mem_map] at ht
  obtain ⟨l, ⟨svc, hsvc, rfl⟩, htl⟩ := ht
  exact (List.mem_filter.mp htl).2

/-- The service loop ignores disabled services and disabled tools:
removing them from the configuration first changes nothing. -/
theorem loadSvcs_enabledOnly (ev : String → PluginEval) (s : Server)
    (svcs : List ServiceConfig) :
    loadSvcs ev s svcs =
      loadSvcs ev s ((svcs.filter (fun svc => svc.enabled)).map
        (fun svc => { svc with tools := svc.tools.filter (fun t => t.enabled) })) := by
  induction svcs generalizing s with
  | nil => rfl
  | cons svc rest ih =>
    by_cases h : svc.enabled = true
    · rw [List.filter_cons, if_pos h, List.map_cons]
      simp only [loadSvcs, h, if_true]
      rw [← loadTools_filter_enabled]
      rcases hlt : loadTools ev s svc.tools with ⟨s', e⟩
      cases e <;> simp [hlt, ih]
    · rw [List.filter_cons, if_neg h]
      simp only [loadSvcs, h]
      rw [if_neg (by simp [h])]
      exact ih s

/-- C6: disabled services and tools are skipped entirely — loading
behaves exactly as on the configuration with the disabled entries
removed (so they are never registered), and the outcome is unchanged
under any modification of the plugin evaluator away from enabled entries
of enabled services (so a disabled entry's plugin reference is never
evaluated and a broken disabled entry cannot cause a load failure). -/
theorem C6_disabled_entries_skipped (ev ev₁ ev₂ : String → PluginEval) (cfg : Config)
    (s : Server)
    (hagree : ∀ svc ∈ cfg.services, svc.enabled = true →
      ∀ t ∈ svc.tools, t.enabled = true → ev₁ t.plugin = ev₂ t.plugin) :
    RegisterToolsFromConfig ev cfg s = RegisterToolsFromConfig ev (enabledOnly cfg) s ∧
    RegisterToolsFromConfig ev₁ cfg s = RegisterToolsFromConfig ev₂ cfg s := by
  constructor
  · exact loadSvcs_enabledOnly ev s cfg.services
  · rw [RegisterToolsFromConfig_eq_seq, RegisterToolsFromConfig_eq_seq]
    apply loadTools_congr
    intro t ht _
    simp only [enabledSeq, List.mem_flatten, List.mem_map] at ht
    obtain ⟨l, ⟨svc, hsvc, rfl⟩, htl⟩ := ht
    have hmem := List.mem_filter.mp htl
    have hsvc' := List.mem_filter.mp hsvc
    exact hagree svc hsvc'.1 hsvc'.2 t hmem.1 hmem.2

/-- C6 witness: a configuration holding a disabled broken tool inside an
enabled service and a whole disabled service, loaded under two
evaluators that agree only on the enabled good tool. -/
theorem C6_disabled_entries_skipped_witness :
    RegisterToolsFromConfig evStrict cfgDisabled srvEmpty =
      RegisterToolsFromConfig evStrict (enabledOnly cfgDisabled) srvEmpty ∧
    RegisterToolsFromConfig evStrict cfgDisabled srvEmpty =
      RegisterToolsFromConfig evStrict' cfgDisabled srvEmpty := by
  apply C6_disabled_entries_skipped evStrict evStrict evStrict' cfgDisabled srvEmpty
  intro svc hsvc hen t ht hte
  simp only [cfgDisabled, List.mem_cons, List.not_mem_nil, or_false] at hsvc
  rcases hsvc with rfl | rfl
  · simp only [List.mem_cons, List.not_mem_nil, or_false] at ht
    rcases ht with rfl | rfl
    · rfl
    · exact absurd hte (by decide)
  · exact absurd hen (by decide)

/-- The tool loop on a sequence of enabled entries whose first evaluation
failure is at position bad stops there with bad's error message, having
registered exactly the earlier entries. -/
theorem loadTools_fail_seq (ev : String → PluginEval) (s : Server)
    (pre : List ToolConfig) (bad : ToolConfig) (post : List ToolConfig) (msg : String)
    (hen : ∀ t ∈ pre ++ bad :: post, t.enabled = true)
    (hpre : ∀ t ∈ pre, (ev t.plugin).isOk = true)
    (hbad : evalErrMsg bad (ev bad.plugin) = some msg) :
    loadTools ev s (pre ++ bad :: post) = (regFold ev s pre, some msg) := by
  revert hen hpre
  induction pre generalizing s with
  | nil =>
    intro hen _
    have hbe : bad.enabled = true := hen bad (by simp)
    cases hev : ev bad.plugin with
    | importFail m =>
      rw [hev] at hbad
      simp only [evalErrMsg, Option.some.injEq] at hbad
      simp [loadTools, hbe, hev, regFold, hbad]
    | symbolFail m =>
      rw [hev] at hbad
      simp only [evalErrMsg, Option.some.injEq] at hbad
      simp [loadTools, hbe, hev, regFold, hbad]
    | badSig =>
      rw [hev] at hbad
      simp only [evalErrMsg, Option.some.injEq] at hbad
      simp [loadTools, hbe, hev, regFold, hbad]
    | ok h' =>
      rw [hev] at hbad
      simp [evalErrMsg] at hbad
  | cons t rest ih =>
    intro hen hpre
    have hte : t.enabled = true := hen t (by simp)
    have hok := hpre t (by simp)
    cases hev : ev t.plugin with
    | ok h' =>
      rw [show regFold ev s (t :: rest) =
          regFold ev (s.RegisterTool t.name t.description t.schema h') rest by
        simp [regFold, hev]]
      rw [List.cons_append]
      simp only [loadTools, hte, hev, if_true]
      exact ih _ (fun t' ht' => hen t' (by simp [ht'])) (fun t' ht' => hpre t' (by simp [ht']))
    | importFail m =>
      rw [hev] at hok
      simp [PluginEval.isOk] at hok
    | symbolFail m =>
      rw [hev] at hok
      simp [PluginEval.isOk] at hok
    | badSig =>
      rw [hev] at hok
      simp [PluginEval.isOk] at hok

/-- C7: if the i-th enabled tool of the configuration fails to load
(unresolvable plugin import, missing Handler symbol, or signature
mismatch), RegisterToolsFromConfig returns that tool's error, the tools
before it remain registered (no rollback), and no later tool is loaded
or registered — the final registry extends the initial one by exactly
the registrations of the tools before position i. -/
theorem C7_tool_load_failure_aborts (ev : String → PluginEval) (cfg : Config) (s : Server)
    (pre : List ToolConfig) (bad : ToolConfig) (post : List ToolConfig) (msg : String)
    (hseq : enabledSeq cfg = pre ++ bad :: post)
    (hpre : ∀ t ∈ pre, (ev t.plugin).isOk = true)
    (hbad : evalErrMsg bad (ev bad.plugin) = some msg) :
    RegisterToolsFromConfig ev cfg s = (regFold ev s pre, some msg) := by
  have hen : ∀ t ∈ pre ++ bad :: post, t.enabled = true := by
    rw [← hseq]
    exact enabledSeq_enabled cfg
  rw [RegisterToolsFromConfig_eq_seq, hseq]
  exact loadTools_fail_seq ev s pre bad post msg hen hpre hbad

/-- C7 witness: a service whose enabled tools are good, bad and after,
where bad's plugin import fails — loading stops at bad with its message,
keeping good registered and never reaching after. -/
theorem C7_tool_load_failure_aborts_witness :
    RegisterToolsFromConfig evStrict cfgFailing srvEmpty =
      (regFold evStrict srvEmpty [goodTool],
        some "failed to evaluate plugin for tool [bad]: no such module") :=
  C7_tool_load_failure_aborts evStrict cfgFailing srvEmpty [goodTool] badTool [afterTool]
    "failed to evaluate plugin for tool [bad]: no such module"
    rfl (by decide) rfl

/-- C5 witness: a tool registered under serviceName Docker is returned
for the query DOCKER, and the queries docker and DOCKER get the same
answer. -/
theorem C5_listToolsForService_case_fold_witness :
    ("pull: pulls" ∈ srvDocker.listToolsForService "DOCKER" ↔
      ∃ p ∈ srvDocker.tools, strToLower p.2.serviceName = strToLower "DOCKER" ∧
        "pull: pulls" = p.2.name ++ ": " ++ p.2.description) ∧
    srvDocker.listToolsForService "docker" = srvDocker.listToolsForService "DOCKER" := by
  obtain ⟨h1, h2⟩ := C5_listToolsForService_case_fold srvDocker "DOCKER"
  exact ⟨h1 "pull: pulls", h2 "docker" (by decide)⟩

/-- C8 witness: two registrations under the name x — the catalogue holds
the second entry and a direct call consults the second (failing)
handler. -/
theorem C8_register_last_write_wins_witness :
    mapGet ((srvEmpty.RegisterTool "x" "d1" [] okHandler).RegisterTool "x" "d2" []
        failHandler).tools "x" = some ⟨"x", "d2", [], failHandler, ""⟩ ∧
    (CallTool ((srvEmpty.RegisterTool "x" "d1" [] okHandler).RegisterTool "x" "d2" []
        failHandler) ⟨"x", none⟩).reply =
      (match failHandler none with
       | .ok _ =>
         { version := JSONRPCVersion,
           result := some (Json.obj
             [("message", Json.str ("Tool " ++ "x" ++ " executed successfully")),
              ("status", Json.str "success")]),
           error := none, id := none }
       | .error e => errResp (NewError (-32000) ("failed to execute tool " ++ "x" ++ ": " ++ e))) := by
  obtain ⟨h1, h2⟩ := C8_register_last_write_wins srvEmpty "x" "d1" "d2" [] [] okHandler failHandler
  exact ⟨h1, h2 none⟩

/-- C10 witness: after one RegisterTool call its entry carries the empty
serviceName, and the query docker returns nothing while the tool list is
nonetheless non-empty. -/
theorem C10_registerTool_empty_serviceName_witness :
    (∀ p ∈ (applyRegs srvEmpty [⟨"x", "d", [], okHandler⟩]).tools, p.2.serviceName = "") ∧
    (applyRegs srvEmpty [⟨"x", "d", [], okHandler⟩]).listToolsForService "docker" =
      (if strToLower "docker" = ""
       then (applyRegs srvEmpty [⟨"x", "d", [], okHandler⟩]).listTools else []) :=
  C10_registerTool_empty_serviceName [⟨"x", "d", [], okHandler⟩] "docker"

end Gomcp
